import Mathlib

/-!
Verification of the AArch64 proof-carrying-code (PCC) checking pass
(`cranelift/codegen/src/isa/aarch64/pcc.rs`) against its specification.

The pass itself is translated function by function from the source file. The
fact algebra (`FactContext`), the `Fact` data model, and the instruction and
operand types the pass consumes are declared outside the provided slice of the
repository, so they are reconstructed from the specification: the algebra is
kept abstract as a structure of operations (the verifier treats it as an
opaque oracle, so every theorem below quantifies over it), and `Fact` follows
the spec's data model.

State is made explicit: the Rust pass mutates the per-register fact store held
by the `VCode` in place and returns `PccResult<()>`; here `check` takes the
`VCode` and returns the updated one inside `PccResult`.
-/

namespace Aarch64Pcc

/-- Error kinds of the PCC pass (spec section 7). -/
inductive PccError where
  | MissingFact
  | UnsupportedFact
  | UnimplementedInst
deriving DecidableEq, Repr

/-- `PccResult<T>` from the source: success or a typed PCC error. -/
abbrev PccResult (α : Type) := Except PccError α

/-- Virtual-register identity. `Writable<Reg>` destinations in the source are
flattened to the underlying register (the pass only ever calls `.to_reg()`). -/
abbrev Reg := Nat

/-- Modelled from the spec: the CLIF value types consulted by this pass
(integer widths, float widths, and the 128-bit vector type). -/
inductive Ty where
  | I8 | I16 | I32 | I64 | F32 | F64 | I8X16
deriving DecidableEq, Repr

/-- Modelled from the spec: byte size of a type (`Type::bytes`), used to scale
indexed addressing. -/
def Ty.bytes : Ty → Nat
  | .I8 => 1
  | .I16 => 2
  | .I32 => 4
  | .I64 => 8
  | .F32 => 4
  | .F64 => 8
  | .I8X16 => 16

/-- Modelled from the spec: memory-access flags; only the `checked` bit is
consulted by this pass. -/
structure MemFlags where
  checked : Bool
deriving DecidableEq, Repr

/-- Modelled from the spec: the eight AArch64 extend modes. -/
inductive ExtendOp where
  | UXTB | UXTH | UXTW | UXTX | SXTB | SXTH | SXTW | SXTX
deriving DecidableEq, Repr

/-- Modelled from the spec: AArch64 shift operators. -/
inductive ShiftOp where
  | LSL | LSR | ASR | ROR
deriving DecidableEq, Repr

/-- Modelled from the spec: a shift operator together with its amount
(`ShiftOpAndAmt`; `.op` and `.amt.value()` are the accessors the pass uses). -/
structure ShiftOpAndAmt where
  op : ShiftOp
  amt : Nat
deriving DecidableEq, Repr

/-- Modelled from the spec: ALU opcodes; only `Add` and `Lsl` are given
dedicated rules, every other opcode takes the generic ALU fallback. -/
inductive ALUOp where
  | Add | Sub | Lsl | OtherAlu
deriving DecidableEq, Repr

/-- Modelled from the spec: 32- or 64-bit operand size of an ALU or move
instruction. -/
inductive OperandSize where
  | Size32 | Size64
deriving DecidableEq, Repr

/-- Bit width of an operand size (`OperandSize::bits`). -/
def OperandSize.bits : OperandSize → Nat
  | .Size32 => 32
  | .Size64 => 64

/-- Maximum unsigned value of an operand size (`OperandSize::max_value`). -/
def OperandSize.max_value : OperandSize → Nat
  | .Size32 => 2 ^ 32 - 1
  | .Size64 => 2 ^ 64 - 1

/-- Modelled from the spec: the zero-filling (`MovZ`) and inverted (`MovN`)
wide-move forms; the chunk-merging form (`MovK`) is its own instruction. -/
inductive MoveWideOp where
  | MovZ | MovN
deriving DecidableEq, Repr

/-- Modelled from the spec: a 16-bit immediate chunk together with a shift
index in {0,1,2,3} (`MoveWideConst`; `bits` is a `u16` in the source and every
constructor of the type keeps `shift` at most 3, matching the ISA encoding). -/
structure MoveWideConst where
  bits : Nat
  shift : Nat
  bits_lt : bits < 65536
  shift_lt : shift < 4

/-- Modelled from the spec: a 12-bit (possibly pre-shifted) ALU immediate;
`value` is the result of the source's `Imm12::value()`. -/
structure Imm12 where
  value : Nat
deriving DecidableEq, Repr

/-- Modelled from the spec: an immediate shift amount (`ImmShift::value()`). -/
structure ImmShift where
  value : Nat
deriving DecidableEq, Repr

/-- Modelled from the spec: a signed 9-bit addressing offset. -/
structure SImm9 where
  value : Int
deriving DecidableEq, Repr

/-- Modelled from the spec: an unsigned 12-bit addressing offset that stores
the already-scaled byte value (see the comment in `check_addr`). -/
structure UImm12Scaled where
  value : Nat
deriving DecidableEq, Repr

/-- Modelled from the spec: of a vector size only the lane type is consulted
(the source calls `size.lane_size().ty()`). -/
structure VectorSize where
  lane_ty : Ty
deriving DecidableEq, Repr

/-- Modelled from the spec: the AArch64 addressing modes matched by
`check_addr`. -/
inductive AMode where
  | RegReg (rn rm : Reg)
  | RegScaled (rn rm : Reg) (ty : Ty)
  | RegScaledExtended (rn rm : Reg) (ty : Ty) (extendop : ExtendOp)
  | RegExtended (rn rm : Reg) (extendop : ExtendOp)
  | Unscaled (rn : Reg) (simm9 : SImm9)
  | UnsignedOffset (rn : Reg) (uimm12 : UImm12Scaled)
  | Label (offset : Int)
  | Const (addr : Nat)
  | RegOffset (rn : Reg) (off : Int) (ty : Ty)
  | SPOffset (off : Int)
  | FPOffset (off : Int)
  | NominalSPOffset (off : Int)
  | SPPostIndexed (simm9 : SImm9)
  | SPPreIndexed (simm9 : SImm9)
deriving DecidableEq, Repr

/-- Modelled from the spec: addressing modes of register-pair accesses; the
pass rejects all of them without inspecting the operands. -/
inductive PairAMode where
  | SignedOffset (reg : Reg) (simm7 : Int)
  | SPPreIndexed (simm7 : Int)
  | SPPostIndexed (simm7 : Int)
deriving DecidableEq, Repr

/-- Modelled from the spec: the abstract `Fact` domain: `Constant(width,
value)` (the register holds exactly `value` as an unsigned `width`-bit
integer), the maximal `Range(width)` (some value representable in `width`
bits, no tighter bound), `Offset(base, delta)` (the base fact's value plus a
known signed delta), and `Mem` region descriptors (a pointer into a named
region with a declared extent and element type). -/
inductive Fact where
  | Constant (bit_width : Nat) (value : Nat)
  | Range (bit_width : Nat)
  | Offset (base : Fact) (delta : Int)
  | Mem (ty : Ty) (min_offset : Nat) (max_offset : Nat)
deriving DecidableEq, Repr

/-- Modelled from the spec: whether a fact is informative enough to justify
deriving an output fact from it; bare `Mem` facts and already-maximal `Range`
facts do not propagate. -/
def Fact.propagates : Fact → Bool
  | .Constant _ _ => true
  | .Range _ => false
  | .Offset _ _ => true
  | .Mem _ _ _ => false

/-- Modelled from the spec: view a fact as a known constant of the given
width, if it is one (`Fact::as_const`). -/
def Fact.as_const : Fact → Nat → Option Nat
  | .Constant w v, width => if w = width then some v else none
  | _, _ => none

/-- `Fact::constant`: build a constant fact. -/
def Fact.constant (bit_width : Nat) (value : Nat) : Fact :=
  .Constant bit_width value

/-- `Fact::max_range_for_width`: the universal fact for a bit width. -/
def Fact.max_range_for_width (width : Nat) : Fact :=
  .Range width

/-- Modelled from the spec: the inferable default fact of a static type
(section 7); narrow integer types are bounded by their width's maximal
`Range` fact, other types admit no default. -/
def Fact.infer_from_type : Ty → Option Fact
  | .I8 => some (.Range 8)
  | .I16 => some (.Range 16)
  | .I32 => some (.Range 32)
  | _ => none

/-- Modelled from the spec: the fact algebra ("the context"), kept abstract as
a structure of its operations since the verifier under proof treats it as an
opaque oracle: arithmetic (`add`, `shl`, `scale`, `offset`), zero/sign
extension, the `load`/`store` address-to-value-fact bridge, and the
`subsumes` soundness predicate. -/
structure FactContext where
  subsumes : Fact → Fact → Bool
  uextend : Fact → Nat → Nat → Option Fact
  sextend : Fact → Nat → Nat → Option Fact
  add : Fact → Fact → Nat → Option Fact
  shl : Fact → Nat → Nat → Option Fact
  scale : Fact → Nat → Nat → Option Fact
  offset : Fact → Nat → Int → Option Fact
  load : Fact → Ty → PccResult Fact
  store : Fact → Ty → Option Fact → PccResult Unit

/-- Modelled from the spec: `subsumesFactOptionals(derived, declaredOpt)`
treats an absent declared fact as no obligation, trivially satisfied. -/
def FactContext.subsumes_fact_optionals (ctx : FactContext) (derived : Fact)
    (declared : Option Fact) : Bool :=
  match declared with
  | none => true
  | some d => ctx.subsumes derived d

/-- The per-register fact store and per-register types carried by the
in-progress `VCode` of a compiled function. -/
structure VCode where
  facts : Reg → Option Fact
  types : Reg → Ty

/-- `VCode::vreg_fact`. -/
def VCode.vreg_fact (vcode : VCode) (r : Reg) : Option Fact :=
  vcode.facts r

/-- `VCode::vreg_type`. -/
def VCode.vreg_type (vcode : VCode) (r : Reg) : Ty :=
  vcode.types r

/-- `VCode::set_vreg_fact`. -/
def VCode.set_vreg_fact (vcode : VCode) (r : Reg) (fact : Fact) : VCode :=
  { vcode with facts := fun r2 => if r2 = r then some fact else vcode.facts r2 }

/-- `get_fact_or_default`: a register's declared fact, or the default fact
inferred from its static type, or `MissingFact`. -/
def get_fact_or_default (vcode : VCode) (reg : Reg) : PccResult Fact :=
  match (vcode.vreg_fact reg).orElse (fun _ => Fact.infer_from_type (vcode.vreg_type reg)) with
  | some f => .ok f
  | none => .error .MissingFact

/-- `has_fact`. -/
def has_fact (vcode : VCode) (reg : Reg) : Bool :=
  (vcode.vreg_fact reg).isSome

/-- `fail_if_missing`. -/
def fail_if_missing (fact : Option Fact) : PccResult Fact :=
  match fact with
  | some f => .ok f
  | none => .error .UnsupportedFact

/-- `check_subsumes`: for now, allow all `Mem` stated facts to validate;
otherwise defer to the algebra's `subsumes`. -/
def check_subsumes (ctx : FactContext) (subsumer : Fact) (subsumee : Fact) :
    PccResult Unit :=
  match subsumee with
  | .Mem _ _ _ => .ok ()
  | _ =>
    if ctx.subsumes subsumer subsumee then .ok ()
    else .error .UnsupportedFact

/-- `extend_fact`: the extend-mode operator table. -/
def extend_fact (ctx : FactContext) (value : Fact) (mode : ExtendOp) : Option Fact :=
  match mode with
  | .UXTB => ctx.uextend value 8 64
  | .UXTH => ctx.uextend value 16 64
  | .UXTW => ctx.uextend value 32 64
  | .UXTX => some value
  | .SXTB => ctx.sextend value 8 64
  | .SXTH => ctx.sextend value 16 64
  | .SXTW => ctx.sextend value 32 64
  | .SXTX => none

/-- `check_output`: the shared output-reconciliation mechanism (spec 4.2). -/
def check_output (ctx : FactContext) (vcode : VCode) (out : Reg) (ins : List Reg)
    (f : VCode → PccResult Fact) : PccResult VCode :=
  match vcode.vreg_fact out with
  | some fact => do
    let result ← f vcode
    (check_subsumes ctx result fact).map (fun _ => vcode)
  | none =>
    if ins.any (fun r => ((vcode.vreg_fact r).map Fact.propagates).getD false) then
      match f vcode with
      | .ok fact => .ok (vcode.set_vreg_fact out fact)
      | .error _ => .ok vcode
    else
      .ok vcode

/-- `check_unop`. -/
def check_unop (ctx : FactContext) (vcode : VCode) (out : Reg) (ra : Reg)
    (f : Fact → PccResult Fact) : PccResult VCode :=
  check_output ctx vcode out [ra] (fun vcode => do
    let raf ← get_fact_or_default vcode ra
    f raf)

/-- `check_binop`. -/
def check_binop (ctx : FactContext) (vcode : VCode) (out : Reg) (ra : Reg) (rb : Reg)
    (f : Fact → Fact → PccResult Fact) : PccResult VCode :=
  check_output ctx vcode out [ra, rb] (fun vcode => do
    let raf ← get_fact_or_default vcode ra
    let rbf ← get_fact_or_default vcode rb
    f raf rbf)

/-- `check_constant`: validate against a declared fact via subsumption, or
install the constant fact on an unfactored destination. -/
def check_constant (ctx : FactContext) (vcode : VCode) (out : Reg) (bit_width : Nat)
    (value : Nat) : PccResult VCode :=
  let result := Fact.constant bit_width value
  match vcode.vreg_fact out with
  | some fact => (check_subsumes ctx result fact).map (fun _ => vcode)
  | none => .ok (vcode.set_vreg_fact out result)

/-- `LoadOrStore`: the operation checked against an amode — a load carrying
the destination's declared fact, or a store carrying the stored value's
fact. -/
inductive LoadOrStore where
  | Load (result_fact : Option Fact)
  | Store (stored_fact : Option Fact)

/-- The inner `check` closure of `check_addr`: for a load, ask the algebra
for the loaded value's fact and require it to subsume the destination's
declared fact (if any); for a store, defer to the algebra's `store`. -/
def access_check (ctx : FactContext) (op : LoadOrStore) (addr : Fact) (ty : Ty) :
    PccResult Unit :=
  match op with
  | .Load result_fact => do
    let loaded_fact ← ctx.load addr ty
    if ctx.subsumes_fact_optionals loaded_fact result_fact then .ok ()
    else .error .UnsupportedFact
  | .Store stored_fact => ctx.store addr ty stored_fact

/-- `check_addr`: unchecked accesses bypass verification; otherwise derive the
address fact for the addressing mode and run the access check. Note that the
scaled addressing modes shadow the instruction's access type with the amode's
own embedded type, exactly as the source does. -/
def check_addr (ctx : FactContext) (flags : MemFlags) (addr : AMode) (vcode : VCode)
    (ty : Ty) (op : LoadOrStore) : PccResult Unit :=
  if flags.checked = false then .ok () else
  match addr with
  | .RegReg rn rm => do
    let rnf ← get_fact_or_default vcode rn
    let rmf ← get_fact_or_default vcode rm
    let sum ← fail_if_missing (ctx.add rnf rmf 64)
    access_check ctx op sum ty
  | .RegScaled rn rm ty => do
    let rnf ← get_fact_or_default vcode rn
    let rmf ← get_fact_or_default vcode rm
    let rm_scaled ← fail_if_missing (ctx.scale rmf 64 ty.bytes)
    let sum ← fail_if_missing (ctx.add rnf rm_scaled 64)
    access_check ctx op sum ty
  | .RegScaledExtended rn rm ty extendop => do
    let rnf ← get_fact_or_default vcode rn
    let rmf ← get_fact_or_default vcode rm
    let rm_extended ← fail_if_missing (extend_fact ctx rmf extendop)
    let rm_scaled ← fail_if_missing (ctx.scale rm_extended 64 ty.bytes)
    let sum ← fail_if_missing (ctx.add rnf rm_scaled 64)
    access_check ctx op sum ty
  | .RegExtended rn rm extendop => do
    let rnf ← get_fact_or_default vcode rn
    let rmf ← get_fact_or_default vcode rm
    let rm_extended ← fail_if_missing (extend_fact ctx rmf extendop)
    let sum ← fail_if_missing (ctx.add rnf rm_extended 64)
    access_check ctx op sum ty
  | .Unscaled rn simm9 => do
    let rnf ← get_fact_or_default vcode rn
    let sum ← fail_if_missing (ctx.offset rnf 64 simm9.value)
    access_check ctx op sum ty
  | .UnsignedOffset rn uimm12 => do
    let rnf ← get_fact_or_default vcode rn
    let sum ← fail_if_missing (ctx.offset rnf 64 (Int.ofNat uimm12.value))
    access_check ctx op sum ty
  | .Label _ => .ok ()
  | .Const _ => .ok ()
  | .RegOffset rn off _ => do
    let rnf ← get_fact_or_default vcode rn
    let sum ← fail_if_missing (ctx.offset rnf 64 off)
    access_check ctx op sum ty
  | .SPOffset _ => .ok ()
  | .FPOffset _ => .ok ()
  | .NominalSPOffset _ => .ok ()
  | .SPPostIndexed _ => .ok ()
  | .SPPreIndexed _ => .ok ()

/-- `check_load`. -/
def check_load (ctx : FactContext) (rd : Option Reg) (flags : MemFlags) (addr : AMode)
    (vcode : VCode) (ty : Ty) : PccResult Unit :=
  let result_fact := rd.bind (fun rd => vcode.vreg_fact rd)
  check_addr ctx flags addr vcode ty (.Load result_fact)

/-- `check_store`. -/
def check_store (ctx : FactContext) (rd : Option Reg) (flags : MemFlags) (addr : AMode)
    (vcode : VCode) (ty : Ty) : PccResult Unit :=
  let stored_fact := rd.bind (fun rd => vcode.vreg_fact rd)
  check_addr ctx flags addr vcode ty (.Store stored_fact)

/-- `check_load_pair`: unconditionally unimplemented. -/
def check_load_pair (_ctx : FactContext) (_flags : MemFlags) (_addr : PairAMode)
    (_vcode : VCode) (_size : Nat) : PccResult Unit :=
  .error .UnimplementedInst

/-- `check_store_pair`: unconditionally unimplemented. -/
def check_store_pair (_ctx : FactContext) (_flags : MemFlags) (_addr : PairAMode)
    (_vcode : VCode) (_size : Nat) : PccResult Unit :=
  .error .UnimplementedInst

/-- `check_load_addr`: a load through a bare address register. -/
def check_load_addr (ctx : FactContext) (flags : MemFlags) (reg : Reg) (vcode : VCode)
    (ty : Ty) : PccResult Unit :=
  if flags.checked = false then .ok () else do
  let fact ← get_fact_or_default vcode reg
  let _output_fact ← ctx.load fact ty
  .ok ()

/-- `check_store_addr`: a store through a bare address register. -/
def check_store_addr (ctx : FactContext) (flags : MemFlags) (reg : Reg) (vcode : VCode)
    (ty : Ty) : PccResult Unit :=
  if flags.checked = false then .ok () else do
  let fact ← get_fact_or_default vcode reg
  let _output_fact ← ctx.store fact ty none
  .ok ()

/-- Bitwise complement of a `u64` value, as a `Nat` (the source's `!x`). -/
def u64_not (x : Nat) : Nat :=
  2 ^ 64 - 1 - x % 2 ^ 64

/-- Modelled from the spec: the AArch64 `Inst` variants matched by the PCC
pass, with the operand fields the pass reads; every other variant of the
(large, closed) instruction enum is collapsed into `Other`, all of which the
pass's final two catch-all arms treat uniformly. -/
inductive Inst where
  | Args
  | ULoad8 (rd : Reg) (mem : AMode) (flags : MemFlags)
  | SLoad8 (rd : Reg) (mem : AMode) (flags : MemFlags)
  | ULoad16 (rd : Reg) (mem : AMode) (flags : MemFlags)
  | SLoad16 (rd : Reg) (mem : AMode) (flags : MemFlags)
  | ULoad32 (rd : Reg) (mem : AMode) (flags : MemFlags)
  | SLoad32 (rd : Reg) (mem : AMode) (flags : MemFlags)
  | ULoad64 (rd : Reg) (mem : AMode) (flags : MemFlags)
  | FpuLoad32 (rd : Reg) (mem : AMode) (flags : MemFlags)
  | FpuLoad64 (rd : Reg) (mem : AMode) (flags : MemFlags)
  | FpuLoad128 (rd : Reg) (mem : AMode) (flags : MemFlags)
  | LoadP64 (rt rt2 : Reg) (mem : PairAMode) (flags : MemFlags)
  | FpuLoadP64 (rt rt2 : Reg) (mem : PairAMode) (flags : MemFlags)
  | FpuLoadP128 (rt rt2 : Reg) (mem : PairAMode) (flags : MemFlags)
  | VecLoadReplicate (rd rn : Reg) (size : VectorSize) (flags : MemFlags)
  | LoadAcquire (access_ty : Ty) (rt rn : Reg) (flags : MemFlags)
  | Store8 (rd : Reg) (mem : AMode) (flags : MemFlags)
  | Store16 (rd : Reg) (mem : AMode) (flags : MemFlags)
  | Store32 (rd : Reg) (mem : AMode) (flags : MemFlags)
  | Store64 (rd : Reg) (mem : AMode) (flags : MemFlags)
  | FpuStore32 (rd : Reg) (mem : AMode) (flags : MemFlags)
  | FpuStore64 (rd : Reg) (mem : AMode) (flags : MemFlags)
  | FpuStore128 (rd : Reg) (mem : AMode) (flags : MemFlags)
  | StoreP64 (rt rt2 : Reg) (mem : PairAMode) (flags : MemFlags)
  | FpuStoreP64 (rt rt2 : Reg) (mem : PairAMode) (flags : MemFlags)
  | FpuStoreP128 (rt rt2 : Reg) (mem : PairAMode) (flags : MemFlags)
  | StoreRelease (access_ty : Ty) (rt rn : Reg) (flags : MemFlags)
  | AluRRR (alu_op : ALUOp) (size : OperandSize) (rd rn rm : Reg)
  | AluRRImm12 (alu_op : ALUOp) (size : OperandSize) (rd rn : Reg) (imm12 : Imm12)
  | AluRRRShift (alu_op : ALUOp) (size : OperandSize) (rd rn rm : Reg)
      (shiftop : ShiftOpAndAmt)
  | AluRRRExtend (alu_op : ALUOp) (size : OperandSize) (rd rn rm : Reg)
      (extendop : ExtendOp)
  | AluRRImmLogic (alu_op : ALUOp) (size : OperandSize) (rd rn : Reg) (imml : Nat)
  | AluRRImmShift (alu_op : ALUOp) (size : OperandSize) (rd rn : Reg)
      (immshift : ImmShift)
  | Extend (rd rn : Reg) (signed : Bool) (from_bits to_bits : Nat)
  | MovWide (op : MoveWideOp) (imm : MoveWideConst) (size : OperandSize) (rd : Reg)
  | MovK (rd rn : Reg) (imm : MoveWideConst) (size : OperandSize)
  | Other

/-- `check`: the per-instruction entry point of the pass. The Rust function
receives the instruction index and queries `vcode[inst_idx]` and
`vcode.inst_defines_facts(inst_idx)`; here the instruction and the result of
that per-instruction query are passed directly. Guarded match arms of the
source (shift/extend adds, immediate shift, zero-extend) are rendered as a
conditional inside the arm whose else-branch is the arm the source would fall
through to. -/
def check (ctx : FactContext) (vcode : VCode) (inst : Inst)
    (inst_defines_facts : Bool) : PccResult VCode :=
  match inst with
  | .Args => .ok vcode
  | .ULoad8 rd mem flags =>
    (check_load ctx (some rd) flags mem vcode .I8).map (fun _ => vcode)
  | .SLoad8 rd mem flags =>
    (check_load ctx (some rd) flags mem vcode .I8).map (fun _ => vcode)
  | .ULoad16 rd mem flags =>
    (check_load ctx (some rd) flags mem vcode .I16).map (fun _ => vcode)
  | .SLoad16 rd mem flags =>
    (check_load ctx (some rd) flags mem vcode .I16).map (fun _ => vcode)
  | .ULoad32 rd mem flags =>
    (check_load ctx (some rd) flags mem vcode .I32).map (fun _ => vcode)
  | .SLoad32 rd mem flags =>
    (check_load ctx (some rd) flags mem vcode .I32).map (fun _ => vcode)
  | .ULoad64 rd mem flags =>
    (check_load ctx (some rd) flags mem vcode .I64).map (fun _ => vcode)
  | .FpuLoad32 _rd mem flags =>
    (check_load ctx none flags mem vcode .F32).map (fun _ => vcode)
  | .FpuLoad64 _rd mem flags =>
    (check_load ctx none flags mem vcode .F64).map (fun _ => vcode)
  | .FpuLoad128 _rd mem flags =>
    (check_load ctx none flags mem vcode .I8X16).map (fun _ => vcode)
  | .LoadP64 _rt _rt2 mem flags =>
    (check_load_pair ctx flags mem vcode 16).map (fun _ => vcode)
  | .FpuLoadP64 _rt _rt2 mem flags =>
    (check_load_pair ctx flags mem vcode 16).map (fun _ => vcode)
  | .FpuLoadP128 _rt _rt2 mem flags =>
    (check_load_pair ctx flags mem vcode 32).map (fun _ => vcode)
  | .VecLoadReplicate _rd rn size flags =>
    (check_load_addr ctx flags rn vcode size.lane_ty).map (fun _ => vcode)
  | .LoadAcquire access_ty _rt rn flags =>
    (check_load_addr ctx flags rn vcode access_ty).map (fun _ => vcode)
  | .Store8 rd mem flags =>
    (check_store ctx (some rd) flags mem vcode .I8).map (fun _ => vcode)
  | .Store16 rd mem flags =>
    (check_store ctx (some rd) flags mem vcode .I16).map (fun _ => vcode)
  | .Store32 rd mem flags =>
    (check_store ctx (some rd) flags mem vcode .I32).map (fun _ => vcode)
  | .Store64 rd mem flags =>
    (check_store ctx (some rd) flags mem vcode .I64).map (fun _ => vcode)
  | .FpuStore32 _rd mem flags =>
    (check_store ctx none flags mem vcode .F32).map (fun _ => vcode)
  | .FpuStore64 _rd mem flags =>
    (check_store ctx none flags mem vcode .F64).map (fun _ => vcode)
  | .FpuStore128 _rd mem flags =>
    (check_store ctx none flags mem vcode .I8X16).map (fun _ => vcode)
  | .StoreP64 _rt _rt2 mem flags =>
    (check_store_pair ctx flags mem vcode 16).map (fun _ => vcode)
  | .FpuStoreP64 _rt _rt2 mem flags =>
    (check_store_pair ctx flags mem vcode 16).map (fun _ => vcode)
  | .FpuStoreP128 _rt _rt2 mem flags =>
    (check_store_pair ctx flags mem vcode 32).map (fun _ => vcode)
  | .StoreRelease access_ty _rt rn flags =>
    (check_store_addr ctx flags rn vcode access_ty).map (fun _ => vcode)
  | .AluRRR alu_op size rd rn rm =>
    if alu_op = ALUOp.Add then
      check_binop ctx vcode rd rn rm (fun rnf rmf =>
        fail_if_missing (ctx.add rnf rmf size.bits))
    else
      check_output ctx vcode rd [] (fun _ => .ok (Fact.max_range_for_width size.bits))
  | .AluRRImm12 alu_op size rd rn imm12 =>
    if alu_op = ALUOp.Add then
      check_unop ctx vcode rd rn (fun rnf =>
        let imm_fact := Fact.constant size.bits imm12.value
        fail_if_missing (ctx.add rnf imm_fact size.bits))
    else
      check_output ctx vcode rd [] (fun _ => .ok (Fact.max_range_for_width size.bits))
  | .AluRRRShift alu_op size rd rn rm shiftop =>
    if alu_op = ALUOp.Add ∧ shiftop.op = ShiftOp.LSL ∧
        has_fact vcode rn = true ∧ has_fact vcode rm = true then
      check_binop ctx vcode rd rn rm (fun rnf rmf => do
        let rm_shifted ← fail_if_missing (ctx.shl rmf size.bits shiftop.amt)
        fail_if_missing (ctx.add rnf rm_shifted size.bits))
    else
      check_output ctx vcode rd [] (fun _ => .ok (Fact.max_range_for_width size.bits))
  | .AluRRRExtend alu_op size rd rn rm extendop =>
    if alu_op = ALUOp.Add ∧ has_fact vcode rn = true ∧ has_fact vcode rm = true then
      check_binop ctx vcode rd rn rm (fun rnf rmf => do
        let rm_extended ← fail_if_missing (extend_fact ctx rmf extendop)
        fail_if_missing (ctx.add rnf rm_extended size.bits))
    else
      check_output ctx vcode rd [] (fun _ => .ok (Fact.max_range_for_width size.bits))
  | .AluRRImmLogic _alu_op size rd _rn _imml =>
    check_output ctx vcode rd [] (fun _ => .ok (Fact.max_range_for_width size.bits))
  | .AluRRImmShift alu_op size rd rn immshift =>
    if alu_op = ALUOp.Lsl ∧ has_fact vcode rn = true then
      check_unop ctx vcode rd rn (fun rnf =>
        fail_if_missing (ctx.shl rnf size.bits immshift.value))
    else
      check_output ctx vcode rd [] (fun _ => .ok (Fact.max_range_for_width size.bits))
  | .Extend rd rn signed from_bits to_bits =>
    if signed = false ∧ has_fact vcode rn = true then
      check_unop ctx vcode rd rn (fun rnf =>
        fail_if_missing (ctx.uextend rnf from_bits to_bits))
    else if inst_defines_facts then .error .UnsupportedFact
    else .ok vcode
  | .MovWide .MovZ imm _size rd =>
    check_constant ctx vcode rd 64 (imm.bits <<< (imm.shift * 16))
  | .MovWide .MovN imm size rd =>
    check_constant ctx vcode rd 64
      (Nat.land (u64_not (imm.bits <<< (imm.shift * 16))) size.max_value)
  | .MovK rd rn imm _size => do
    let input ← get_fact_or_default vcode rn
    match input.as_const 64 with
    | some input_constant =>
      check_constant ctx vcode rd 64
        (Nat.lor input_constant (imm.bits <<< (imm.shift * 16)))
    | none =>
      check_output ctx vcode rd [] (fun _ => .ok (Fact.max_range_for_width 64))
  | .Other =>
    if inst_defines_facts then .error .UnsupportedFact
    else .ok vcode

/-- The addressing-mode fact derivation of `check_addr` viewed on its own:
for each addressing mode, the derived address fact together with the access
type actually used by the subsequent load/store check (the amode's own
embedded type for the scaled modes, the instruction's access type otherwise),
`none` for the unconditionally accepted modes, or the derivation error. -/
def amode_fact (ctx : FactContext) (vcode : VCode) (addr : AMode) (ty : Ty) :
    PccResult (Option (Fact × Ty)) :=
  match addr with
  | .RegReg rn rm => do
    let rnf ← get_fact_or_default vcode rn
    let rmf ← get_fact_or_default vcode rm
    let sum ← fail_if_missing (ctx.add rnf rmf 64)
    pure (some (sum, ty))
  | .RegScaled rn rm ty => do
    let rnf ← get_fact_or_default vcode rn
    let rmf ← get_fact_or_default vcode rm
    let rm_scaled ← fail_if_missing (ctx.scale rmf 64 ty.bytes)
    let sum ← fail_if_missing (ctx.add rnf rm_scaled 64)
    pure (some (sum, ty))
  | .RegScaledExtended rn rm ty extendop => do
    let rnf ← get_fact_or_default vcode rn
    let rmf ← get_fact_or_default vcode rm
    let rm_extended ← fail_if_missing (extend_fact ctx rmf extendop)
    let rm_scaled ← fail_if_missing (ctx.scale rm_extended 64 ty.bytes)
    let sum ← fail_if_missing (ctx.add rnf rm_scaled 64)
    pure (some (sum, ty))
  | .RegExtended rn rm extendop => do
    let rnf ← get_fact_or_default vcode rn
    let rmf ← get_fact_or_default vcode rm
    let rm_extended ← fail_if_missing (extend_fact ctx rmf extendop)
    let sum ← fail_if_missing (ctx.add rnf rm_extended 64)
    pure (some (sum, ty))
  | .Unscaled rn simm9 => do
    let rnf ← get_fact_or_default vcode rn
    let sum ← fail_if_missing (ctx.offset rnf 64 simm9.value)
    pure (some (sum, ty))
  | .UnsignedOffset rn uimm12 => do
    let rnf ← get_fact_or_default vcode rn
    let sum ← fail_if_missing (ctx.offset rnf 64 (Int.ofNat uimm12.value))
    pure (some (sum, ty))
  | .Label _ => pure none
  | .Const _ => pure none
  | .RegOffset rn off _ => do
    let rnf ← get_fact_or_default vcode rn
    let sum ← fail_if_missing (ctx.offset rnf 64 off)
    pure (some (sum, ty))
  | .SPOffset _ => pure none
  | .FPOffset _ => pure none
  | .NominalSPOffset _ => pure none
  | .SPPostIndexed _ => pure none
  | .SPPreIndexed _ => pure none

/-- A concrete instantiation of the abstract algebra, used to exercise the
theorems on closed inputs: subsumption is syntactic equality, the arithmetic
operators return their first operand, zero-extensions succeed, sign-extensions
fail, and loads return the universal 64-bit range fact. -/
def ctx0 : FactContext where
  subsumes := fun a b => decide (a = b)
  uextend := fun f _ _ => some f
  sextend := fun _ _ _ => none
  add := fun a _ _ => some a
  shl := fun a _ _ => some a
  scale := fun a _ _ => some a
  offset := fun a _ _ => some a
  load := fun _ _ => .ok (Fact.Range 64)
  store := fun _ _ _ => .ok ()

/-- A concrete algebra whose subsumption always refuses and whose loads
return a constant fact; used to exhibit behaviour that does not depend on the
subsumption verdict. -/
def ctxRefuse : FactContext where
  subsumes := fun _ _ => false
  uextend := fun f _ _ => some f
  sextend := fun _ _ _ => none
  add := fun a _ _ => some a
  shl := fun a _ _ => some a
  scale := fun a _ _ => some a
  offset := fun a _ _ => some a
  load := fun _ _ => .ok (Fact.Constant 64 0)
  store := fun _ _ _ => .ok ()

/-- A concrete fact store with declared facts on registers 0 and 1. -/
def vcode01 : VCode where
  facts := fun r =>
    if r = 0 then some (Fact.Constant 64 5)
    else if r = 1 then some (Fact.Constant 64 7)
    else none
  types := fun _ => Ty.I64

/-- A concrete fact store with a declared constant fact only on register 1. -/
def vcode1 : VCode where
  facts := fun r => if r = 1 then some (Fact.Constant 64 0x1234) else none
  types := fun _ => Ty.I64

/-- Reduction helper: an `Except` bind on a success. -/
theorem pcc_bind_ok {α β : Type} (a : α) (f : α → PccResult β) :
    (Except.ok a : PccResult α) >>= f = f a := rfl

/-- Reduction helper: an `Except` bind on an error. -/
theorem pcc_bind_error {α β : Type} (e : PccError) (f : α → PccResult β) :
    (Except.error e : PccResult α) >>= f = Except.error e := rfl

/-- `check_addr` is exactly: accept unchecked accesses, otherwise run the
addressing-mode derivation and, where it produces an address fact, the
load/store access check at the derived fact and type. -/
theorem check_addr_eq (ctx : FactContext) (flags : MemFlags) (addr : AMode)
    (vcode : VCode) (ty : Ty) (op : LoadOrStore) :
    check_addr ctx flags addr vcode ty op =
      if flags.checked = false then .ok () else
      match amode_fact ctx vcode addr ty with
      | .error e => .error e
      | .ok none => .ok ()
      | .ok (some (sum, t)) => access_check ctx op sum t := by
  by_cases hc : flags.checked = false
  · simp [check_addr, hc]
  · rw [if_neg hc]
    cases addr with
    | RegReg rn rm =>
      simp only [check_addr, amode_fact, if_neg hc]
      cases h1 : get_fact_or_default vcode rn with
      | error e => rfl
      | ok rnf =>
        simp only [pcc_bind_ok]
        cases h2 : get_fact_or_default vcode rm with
        | error e => rfl
        | ok rmf =>
          simp only [pcc_bind_ok]
          cases h3 : fail_if_missing (ctx.add rnf rmf 64) with
          | error e => rfl
          | ok sum => rfl
    | RegScaled rn rm aty =>
      simp only [check_addr, amode_fact, if_neg hc]
      cases h1 : get_fact_or_default vcode rn with
      | error e => rfl
      | ok rnf =>
        simp only [pcc_bind_ok]
        cases h2 : get_fact_or_default vcode rm with
        | error e => rfl
        | ok rmf =>
          simp only [pcc_bind_ok]
          cases h3 : fail_if_missing (ctx.scale rmf 64 aty.bytes) with
          | error e => rfl
          | ok rm_scaled =>
            simp only [pcc_bind_ok]
            cases h4 : fail_if_missing (ctx.add rnf rm_scaled 64) with
            | error e => rfl
            | ok sum => rfl
    | RegScaledExtended rn rm aty extendop =>
      simp only [check_addr, amode_fact, if_neg hc]
      cases h1 : get_fact_or_default vcode rn with
      | error e => rfl
      | ok rnf =>
        simp only [pcc_bind_ok]
        cases h2 : get_fact_or_default vcode rm with
        | error e => rfl
        | ok rmf =>
          simp only [pcc_bind_ok]
          cases h3 : fail_if_missing (extend_fact ctx rmf extendop) with
          | error e => rfl
          | ok rm_extended =>
            simp only [pcc_bind_ok]
            cases h4 : fail_if_missing (ctx.scale rm_extended 64 aty.bytes) with
            | error e => rfl
            | ok rm_scaled =>
              simp only [pcc_bind_ok]
              cases h5 : fail_if_missing (ctx.add rnf rm_scaled 64) with
              | error e => rfl
              | ok sum => rfl
    | RegExtended rn rm extendop =>
      simp only [check_addr, amode_fact, if_neg hc]
      cases h1 : get_fact_or_default vcode rn with
      | error e => rfl
      | ok rnf =>
        simp only [pcc_bind_ok]
        cases h2 : get_fact_or_default vcode rm with
        | error e => rfl
        | ok rmf =>
          simp only [pcc_bind_ok]
          cases h3 : fail_if_missing (extend_fact ctx rmf extendop) with
          | error e => rfl
          | ok rm_extended =>
            simp only [pcc_bind_ok]
            cases h4 : fail_if_missing (ctx.add rnf rm_extended 64) with
            | error e => rfl
            | ok sum => rfl
    | Unscaled rn simm9 =>
      simp only [check_addr, amode_fact, if_neg hc]
      cases h1 : get_fact_or_default vcode rn with
      | error e => rfl
      | ok rnf =>
        simp only [pcc_bind_ok]
        cases h2 : fail_if_missing (ctx.offset rnf 64 simm9.value) with
        | error e => rfl
        | ok sum => rfl
    | UnsignedOffset rn uimm12 =>
      simp only [check_addr, amode_fact, if_neg hc]
      cases h1 : get_fact_or_default vcode rn with
      | error e => rfl
      | ok rnf =>
        simp only [pcc_bind_ok]
        cases h2 : fail_if_missing (ctx.offset rnf 64 (Int.ofNat uimm12.value)) with
        | error e => rfl
        | ok sum => rfl
    | RegOffset rn off aty =>
      simp only [check_addr, amode_fact, if_neg hc]
      cases h1 : get_fact_or_default vcode rn with
      | error e => rfl
      | ok rnf =>
        simp only [pcc_bind_ok]
        cases h2 : fail_if_missing (ctx.offset rnf 64 off) with
        | error e => rfl
        | ok sum => rfl
    | Label off =>
      simp only [check_addr, amode_fact, if_neg hc]
      rfl
    | Const a =>
      simp only [check_addr, amode_fact, if_neg hc]
      rfl
    | SPOffset off =>
      simp only [check_addr, amode_fact, if_neg hc]
      rfl
    | FPOffset off =>
      simp only [check_addr, amode_fact, if_neg hc]
      rfl
    | NominalSPOffset off =>
      simp only [check_addr, amode_fact, if_neg hc]
      rfl
    | SPPostIndexed simm9 =>
      simp only [check_addr, amode_fact, if_neg hc]
      rfl
    | SPPreIndexed simm9 =>
      simp only [check_addr, amode_fact, if_neg hc]
      rfl

/-- Claim C3: for every candidate (derived) fact and every stated fact that is
a `Mem` fact, the verifier's subsumption check succeeds unconditionally,
regardless of the candidate (and of the algebra's own `subsumes`). -/
theorem mem_stated_fact_always_subsumed (ctx : FactContext) (c : Fact) (ty : Ty)
    (mn mx : Nat) :
    check_subsumes ctx c (Fact.Mem ty mn mx) = .ok () := rfl

/-- Claim C6: the extend-mode operator maps `UXTX` to the identity on facts,
`SXTX` to no derivation at all (so a rule requiring the extended fact fails
with `UnsupportedFact`), and the byte/half/word modes to `uextend`/`sextend`
with the corresponding (from-bits, 64) pairs. -/
theorem extend_mode_operator_table (ctx : FactContext) (value : Fact) :
    extend_fact ctx value .UXTX = some value ∧
    extend_fact ctx value .SXTX = none ∧
    fail_if_missing (extend_fact ctx value .SXTX) = .error .UnsupportedFact ∧
    extend_fact ctx value .UXTB = ctx.uextend value 8 64 ∧
    extend_fact ctx value .UXTH = ctx.uextend value 16 64 ∧
    extend_fact ctx value .UXTW = ctx.uextend value 32 64 ∧
    extend_fact ctx value .SXTB = ctx.sextend value 8 64 ∧
    extend_fact ctx value .SXTH = ctx.sextend value 16 64 ∧
    extend_fact ctx value .SXTW = ctx.sextend value 32 64 :=
  ⟨rfl, rfl, rfl, rfl, rfl, rfl, rfl, rfl, rfl⟩

/-- Claim C9: every register-pair load or store (64-bit integer pair, 64-bit
float pair, 128-bit float pair) fails with `UnimplementedInst`, regardless of
operands, addressing mode, memory flags, or facts in the store. -/
theorem register_pair_accesses_always_rejected (ctx : FactContext)
    (vcode : VCode) (flags : MemFlags) (addr : PairAMode) (sz : Nat)
    (rt rt2 : Reg) (idf : Bool) :
    check_load_pair ctx flags addr vcode sz = .error .UnimplementedInst ∧
    check_store_pair ctx flags addr vcode sz = .error .UnimplementedInst ∧
    check ctx vcode (.LoadP64 rt rt2 addr flags) idf = .error .UnimplementedInst ∧
    check ctx vcode (.FpuLoadP64 rt rt2 addr flags) idf = .error .UnimplementedInst ∧
    check ctx vcode (.FpuLoadP128 rt rt2 addr flags) idf = .error .UnimplementedInst ∧
    check ctx vcode (.StoreP64 rt rt2 addr flags) idf = .error .UnimplementedInst ∧
    check ctx vcode (.FpuStoreP64 rt rt2 addr flags) idf = .error .UnimplementedInst ∧
    check ctx vcode (.FpuStoreP128 rt rt2 addr flags) idf = .error .UnimplementedInst :=
  ⟨rfl, rfl, rfl, rfl, rfl, rfl, rfl, rfl⟩

/-- Claim C5: an instruction matching none of the recognized shapes (here the
collapsed `Other` variant, and equally a sign-extend `Extend`, which falls
through the guarded arm) is rejected with `UnsupportedFact` when the
per-register store reports that its definition must carry a fact, and is
otherwise accepted with the fact store unchanged. -/
theorem unrecognized_inst_policy (ctx : FactContext) (vcode : VCode)
    (rd rn : Reg) (fb tb : Nat) :
    check ctx vcode .Other true = .error .UnsupportedFact ∧
    check ctx vcode .Other false = .ok vcode ∧
    check ctx vcode (.Extend rd rn true fb tb) true = .error .UnsupportedFact ∧
    check ctx vcode (.Extend rd rn true fb tb) false = .ok vcode :=
  ⟨rfl, rfl, rfl, rfl⟩

/-- Claim C4: every (non-pair) load or store whose memory flags are not marked
checked — including the direct address-register acquire/release forms — is
accepted with the fact store unchanged, for every algebra, every addressing
mode and every fact store (so no algebra call and no fact lookup can influence
the outcome). -/
theorem unchecked_accesses_bypass_verification (ctx : FactContext)
    (vcode : VCode) (rd rt rn : Reg) (mem : AMode) (size : VectorSize)
    (aty : Ty) (idf : Bool) :
    check ctx vcode (.ULoad8 rd mem ⟨false⟩) idf = .ok vcode ∧
    check ctx vcode (.SLoad8 rd mem ⟨false⟩) idf = .ok vcode ∧
    check ctx vcode (.ULoad16 rd mem ⟨false⟩) idf = .ok vcode ∧
    check ctx vcode (.SLoad16 rd mem ⟨false⟩) idf = .ok vcode ∧
    check ctx vcode (.ULoad32 rd mem ⟨false⟩) idf = .ok vcode ∧
    check ctx vcode (.SLoad32 rd mem ⟨false⟩) idf = .ok vcode ∧
    check ctx vcode (.ULoad64 rd mem ⟨false⟩) idf = .ok vcode ∧
    check ctx vcode (.FpuLoad32 rd mem ⟨false⟩) idf = .ok vcode ∧
    check ctx vcode (.FpuLoad64 rd mem ⟨false⟩) idf = .ok vcode ∧
    check ctx vcode (.FpuLoad128 rd mem ⟨false⟩) idf = .ok vcode ∧
    check ctx vcode (.VecLoadReplicate rd rn size ⟨false⟩) idf = .ok vcode ∧
    check ctx vcode (.LoadAcquire aty rt rn ⟨false⟩) idf = .ok vcode ∧
    check ctx vcode (.Store8 rd mem ⟨false⟩) idf = .ok vcode ∧
    check ctx vcode (.Store16 rd mem ⟨false⟩) idf = .ok vcode ∧
    check ctx vcode (.Store32 rd mem ⟨false⟩) idf = .ok vcode ∧
    check ctx vcode (.Store64 rd mem ⟨false⟩) idf = .ok vcode ∧
    check ctx vcode (.FpuStore32 rd mem ⟨false⟩) idf = .ok vcode ∧
    check ctx vcode (.FpuStore64 rd mem ⟨false⟩) idf = .ok vcode ∧
    check ctx vcode (.FpuStore128 rd mem ⟨false⟩) idf = .ok vcode ∧
    check ctx vcode (.StoreRelease aty rt rn ⟨false⟩) idf = .ok vcode :=
  ⟨rfl, rfl, rfl, rfl, rfl, rfl, rfl, rfl, rfl, rfl, rfl, rfl, rfl, rfl, rfl,
   rfl, rfl, rfl, rfl, rfl⟩

/-- Claim C2: the shared output-reconciliation mechanism. (1) If the output
register already carries a fact, the derivation `f` is run and the
instruction fails unless the derived fact subsumes the existing one, errors
of `f` failing the instruction as well; (2) else, if at least one input
register carries a propagating fact, `f` is run, a successful derivation is
installed on the output, and a failed derivation still reports success and
leaves the output unfactored; (3) else the instruction is accepted and the
output receives no fact. -/
theorem output_reconciliation_policy (ctx : FactContext) (vcode : VCode)
    (out : Reg) (ins : List Reg) (f : VCode → PccResult Fact) :
    (∀ fact, vcode.vreg_fact out = some fact →
      (∀ e, f vcode = .error e →
        check_output ctx vcode out ins f = .error e) ∧
      (∀ derived, f vcode = .ok derived →
        check_output ctx vcode out ins f =
          (check_subsumes ctx derived fact).map (fun _ => vcode))) ∧
    (vcode.vreg_fact out = none →
      (ins.any (fun r => ((vcode.vreg_fact r).map Fact.propagates).getD false) = true →
        (∀ derived, f vcode = .ok derived →
          check_output ctx vcode out ins f = .ok (vcode.set_vreg_fact out derived)) ∧
        (∀ e, f vcode = .error e →
          check_output ctx vcode out ins f = .ok vcode)) ∧
      (ins.any (fun r => ((vcode.vreg_fact r).map Fact.propagates).getD false) = false →
        check_output ctx vcode out ins f = .ok vcode)) := by
  constructor
  · intro fact hfact
    constructor
    · intro e hf
      simp only [check_output, hfact, hf]
      rfl
    · intro derived hf
      simp only [check_output, hfact, hf]
      rfl
  · intro hnone
    constructor
    · intro hany
      constructor
      · intro derived hf
        simp only [check_output, hnone, hany, hf]
        rfl
      · intro e hf
        simp only [check_output, hnone, hany, hf]
        rfl
    · intro hany
      simp only [check_output, hnone, hany]
      rfl

/-- Claim C2 (witness): the three branches of the reconciliation policy on
closed inputs — a declared output checked by subsumption, a propagating
input installing the derived fact, a failed derivation accepted without a
fact, and no propagating input accepted untouched. -/
theorem output_reconciliation_policy_witness :
    check_output ctx0 vcode01 0 [1] (fun _ => .ok (Fact.Constant 64 5)) =
      (check_subsumes ctx0 (Fact.Constant 64 5) (Fact.Constant 64 5)).map
        (fun _ => vcode01) ∧
    check_output ctx0 vcode1 0 [1] (fun _ => .ok (Fact.Constant 64 9)) =
      .ok (vcode1.set_vreg_fact 0 (Fact.Constant 64 9)) ∧
    check_output ctx0 vcode1 0 [1] (fun _ => .error .MissingFact) = .ok vcode1 ∧
    check_output ctx0 vcode1 0 [] (fun _ => .ok (Fact.Constant 64 9)) = .ok vcode1 := by
  refine ⟨?_, ?_, ?_, ?_⟩
  · exact ((output_reconciliation_policy ctx0 vcode01 0 [1] _).1
      (Fact.Constant 64 5) rfl).2 (Fact.Constant 64 5) rfl
  · exact (((output_reconciliation_policy ctx0 vcode1 0 [1] _).2 rfl).1 rfl).1
      (Fact.Constant 64 9) rfl
  · exact (((output_reconciliation_policy ctx0 vcode1 0 [1] _).2 rfl).1 rfl).2
      .MissingFact rfl
  · exact ((output_reconciliation_policy ctx0 vcode1 0 [] _).2 rfl).2 rfl

/-- Claim C7: the zero-filling wide move derives `Constant(64, chunk shifted
left by 16 times the shift index)` and the inverted form derives the bitwise
complement masked to the operand size's maximum value; the derived constant
is checked by subsumption against a pre-existing destination fact, or
installed when the destination has none; and a MovZ of chunk 0x1234 at shift
index 0 on a factless destination installs exactly `Constant(64, 0x1234)`. -/
theorem movwide_constant_facts :
    (∀ (ctx : FactContext) (vcode : VCode) (idf : Bool) (rd : Reg)
        (imm : MoveWideConst) (size : OperandSize),
      check ctx vcode (.MovWide .MovZ imm size rd) idf =
        check_constant ctx vcode rd 64 (imm.bits <<< (imm.shift * 16)) ∧
      check ctx vcode (.MovWide .MovN imm size rd) idf =
        check_constant ctx vcode rd 64
          (Nat.land (u64_not (imm.bits <<< (imm.shift * 16))) size.max_value)) ∧
    (∀ (ctx : FactContext) (vcode : VCode) (out : Reg) (w v : Nat),
      (vcode.vreg_fact out = none →
        check_constant ctx vcode out w v =
          .ok (vcode.set_vreg_fact out (Fact.constant w v))) ∧
      (∀ fact, vcode.vreg_fact out = some fact →
        check_constant ctx vcode out w v =
          (check_subsumes ctx (Fact.constant w v) fact).map (fun _ => vcode))) ∧
    (∀ (ctx : FactContext) (vcode : VCode) (idf : Bool) (rd : Reg)
        (size : OperandSize),
      vcode.vreg_fact rd = none →
      check ctx vcode (.MovWide .MovZ ⟨0x1234, 0, by decide, by decide⟩ size rd) idf =
        .ok (vcode.set_vreg_fact rd (Fact.Constant 64 0x1234))) := by
  refine ⟨fun ctx vcode idf rd imm size => ⟨rfl, rfl⟩, ?_, ?_⟩
  · intro ctx vcode out w v
    constructor
    · intro hnone
      simp only [check_constant, hnone]
    · intro fact hfact
      simp only [check_constant, hfact]
  · intro ctx vcode idf rd size hnone
    simp only [check, check_constant, hnone]
    rfl

/-- Claim C7 (witness): the MovZ rule on closed inputs — installation on a
factless destination and subsumption against a declared one. -/
theorem movwide_constant_facts_witness :
    check ctx0 vcode1 (.MovWide .MovZ ⟨0x1234, 0, by decide, by decide⟩ .Size64 0)
        false = .ok (vcode1.set_vreg_fact 0 (Fact.Constant 64 0x1234)) ∧
    check_constant ctx0 vcode1 0 64 77 =
      .ok (vcode1.set_vreg_fact 0 (Fact.constant 64 77)) ∧
    check_constant ctx0 vcode1 1 64 0x1234 =
      (check_subsumes ctx0 (Fact.constant 64 0x1234) (Fact.Constant 64 0x1234)).map
        (fun _ => vcode1) := by
  refine ⟨?_, ?_, ?_⟩
  · exact movwide_constant_facts.2.2 ctx0 vcode1 false 0 .Size64 rfl
  · exact (movwide_constant_facts.2.1 ctx0 vcode1 0 64 77).1 rfl
  · exact (movwide_constant_facts.2.1 ctx0 vcode1 1 64 0x1234).2
      (Fact.Constant 64 0x1234) rfl

/-- Reduction helper: a register whose store entry is a fact resolves to that
fact under `get_fact_or_default`. -/
theorem gfod_of_fact (vcode : VCode) (r : Reg) (f : Fact)
    (h : vcode.vreg_fact r = some f) : get_fact_or_default vcode r = .ok f := by
  simp [get_fact_or_default, h, Option.orElse]

/-- Claim C8: the constant-merging move. When the input register's fact is a
known 64-bit constant `c`, the rule reduces to `check_constant` at
`c ||| (chunk <<< 16k)`; otherwise it reduces to the reconciliation rule with
the maximal 64-bit range fact as derivation. In particular, merging chunk
0x5678 at shift index 1 into a register holding `Constant(64, 0x1234)` (the
state after the C7 MovZ) installs `Constant(64, 0x56781234)` on a factless
destination. -/
theorem movk_constant_merge :
    (∀ (ctx : FactContext) (vcode : VCode) (idf : Bool) (rd rn : Reg)
        (imm : MoveWideConst) (size : OperandSize) (input : Fact),
      get_fact_or_default vcode rn = .ok input →
      (∀ c, input.as_const 64 = some c →
        check ctx vcode (.MovK rd rn imm size) idf =
          check_constant ctx vcode rd 64
            (Nat.lor c (imm.bits <<< (imm.shift * 16)))) ∧
      (input.as_const 64 = none →
        check ctx vcode (.MovK rd rn imm size) idf =
          check_output ctx vcode rd []
            (fun _ => .ok (Fact.max_range_for_width 64)))) ∧
    (∀ (ctx : FactContext) (vcode : VCode) (idf : Bool) (rd rn : Reg)
        (size : OperandSize),
      vcode.vreg_fact rn = some (Fact.Constant 64 0x1234) →
      vcode.vreg_fact rd = none →
      check ctx vcode (.MovK rd rn ⟨0x5678, 1, by decide, by decide⟩ size) idf =
        .ok (vcode.set_vreg_fact rd (Fact.Constant 64 0x56781234))) := by
  constructor
  · intro ctx vcode idf rd rn imm size input hin
    constructor
    · intro c hc
      simp only [check, hin, pcc_bind_ok, hc]
    · intro hc
      simp only [check, hin, pcc_bind_ok, hc]
  · intro ctx vcode idf rd rn size hrn hrd
    simp only [check, gfod_of_fact vcode rn (Fact.Constant 64 0x1234) hrn,
      pcc_bind_ok, Fact.as_const, check_constant, hrd]
    rfl

/-- Claim C8 (witness): the MOVZ-then-MOVK chain of the spec's example on
closed inputs, and the general constant-merge equation at the same inputs. -/
theorem movk_constant_merge_witness :
    check ctx0 vcode1 (.MovK 0 1 ⟨0x5678, 1, by decide, by decide⟩ .Size64) false =
      .ok (vcode1.set_vreg_fact 0 (Fact.Constant 64 0x56781234)) ∧
    check ctx0 vcode1 (.MovK 0 1 ⟨0x5678, 1, by decide, by decide⟩ .Size64) false =
      check_constant ctx0 vcode1 0 64 (Nat.lor 0x1234 (0x5678 <<< (1 * 16))) := by
  refine ⟨?_, ?_⟩
  · exact movk_constant_merge.2 ctx0 vcode1 false 0 1 .Size64 rfl rfl
  · exact (movk_constant_merge.1 ctx0 vcode1 false 0 1
      ⟨0x5678, 1, by decide, by decide⟩ .Size64 (Fact.Constant 64 0x1234) rfl).1
      0x1234 rfl

/-- Reduction helper: an `Except.map` by a constant function reaching a
success pins down the result. -/
theorem except_map_const_ok {α : Type} {e : PccResult α} {v v2 : VCode}
    (h : e.map (fun _ => v) = .ok v2) : v2 = v := by
  cases e with
  | error er => simp [Except.map] at h
  | ok a =>
    simp only [Except.map] at h
    injection h with h2
    exact h2.symm

/-- Installing a fact on a previously factless register preserves every
existing fact of the store. -/
theorem set_vreg_fact_preserves {vcode : VCode} {out : Reg} (d : Fact)
    (hout : vcode.vreg_fact out = none) :
    ∀ r f0, vcode.vreg_fact r = some f0 →
      (vcode.set_vreg_fact out d).vreg_fact r = some f0 := by
  intro r f0 hr
  by_cases hro : r = out
  · rw [hro] at hr
    rw [hr] at hout
    exact Option.noConfusion hout
  · show (if r = out then some d else vcode.facts r) = some f0
    rw [if_neg hro]
    exact hr

/-- A successful `check_output` either leaves the store untouched or installs
one fact on a previously factless output register. -/
theorem check_output_ok_cases {ctx : FactContext} {vcode : VCode} {out : Reg}
    {ins : List Reg} {f : VCode → PccResult Fact} {vcode2 : VCode}
    (h : check_output ctx vcode out ins f = .ok vcode2) :
    vcode2 = vcode ∨
      (vcode.vreg_fact out = none ∧ ∃ d, vcode2 = vcode.set_vreg_fact out d) := by
  cases hout : vcode.vreg_fact out with
  | some fact =>
    simp only [check_output, hout] at h
    cases hf : f vcode with
    | error e =>
      rw [hf] at h
      simp only [pcc_bind_error] at h
      exact Except.noConfusion h
    | ok d =>
      rw [hf] at h
      simp only [pcc_bind_ok] at h
      exact Or.inl (except_map_const_ok h)
  | none =>
    simp only [check_output, hout] at h
    by_cases hany :
        ins.any (fun r => ((vcode.vreg_fact r).map Fact.propagates).getD false) = true
    · rw [if_pos hany] at h
      cases hf : f vcode with
      | ok d =>
        rw [hf] at h
        injection h with h2
        exact Or.inr ⟨rfl, d, h2.symm⟩
      | error e =>
        rw [hf] at h
        injection h with h2
        exact Or.inl h2.symm
    · rw [if_neg hany] at h
      injection h with h2
      exact Or.inl h2.symm

/-- A successful `check_constant` either leaves the store untouched or
installs the constant fact on a previously factless output register. -/
theorem check_constant_ok_cases {ctx : FactContext} {vcode : VCode} {out : Reg}
    {w v : Nat} {vcode2 : VCode}
    (h : check_constant ctx vcode out w v = .ok vcode2) :
    vcode2 = vcode ∨
      (vcode.vreg_fact out = none ∧
        vcode2 = vcode.set_vreg_fact out (Fact.constant w v)) := by
  cases hout : vcode.vreg_fact out with
  | some fact =>
    simp only [check_constant, hout] at h
    exact Or.inl (except_map_const_ok h)
  | none =>
    simp only [check_constant, hout] at h
    injection h with h2
    exact Or.inr ⟨rfl, h2.symm⟩

/-- Claim C10: the fact store is mutated only by adding a fact to a register
that previously had none — a successful verification of any instruction
preserves every fact already in the store (an attempted overwrite is instead
routed through subsumption and turned into pass/fail, so a fact, once set, is
never overwritten or retracted). -/
theorem fact_store_monotone (ctx : FactContext) (vcode : VCode) (inst : Inst)
    (idf : Bool) (vcode2 : VCode)
    (h : check ctx vcode inst idf = .ok vcode2) :
    ∀ r f0, vcode.vreg_fact r = some f0 → vcode2.vreg_fact r = some f0 := by
  intro r f0 hr
  cases inst
  case Args =>
    simp only [check] at h
    injection h with h2
    rw [← h2]
    exact hr
  case ULoad8 rd mem flags =>
    simp only [check] at h
    rw [except_map_const_ok h]
    exact hr
  case SLoad8 rd mem flags =>
    simp only [check] at h
    rw [except_map_const_ok h]
    exact hr
  case ULoad16 rd mem flags =>
    simp only [check] at h
    rw [except_map_const_ok h]
    exact hr
  case SLoad16 rd mem flags =>
    simp only [check] at h
    rw [except_map_const_ok h]
    exact hr
  case ULoad32 rd mem flags =>
    simp only [check] at h
    rw [except_map_const_ok h]
    exact hr
  case SLoad32 rd mem flags =>
    simp only [check] at h
    rw [except_map_const_ok h]
    exact hr
  case ULoad64 rd mem flags =>
    simp only [check] at h
    rw [except_map_const_ok h]
    exact hr
  case FpuLoad32 rd mem flags =>
    simp only [check] at h
    rw [except_map_const_ok h]
    exact hr
  case FpuLoad64 rd mem flags =>
    simp only [check] at h
    rw [except_map_const_ok h]
    exact hr
  case FpuLoad128 rd mem flags =>
    simp only [check] at h
    rw [except_map_const_ok h]
    exact hr
  case LoadP64 rt rt2 mem flags =>
    simp only [check] at h
    rw [except_map_const_ok h]
    exact hr
  case FpuLoadP64 rt rt2 mem flags =>
    simp only [check] at h
    rw [except_map_const_ok h]
    exact hr
  case FpuLoadP128 rt rt2 mem flags =>
    simp only [check] at h
    rw [except_map_const_ok h]
    exact hr
  case VecLoadReplicate rd rn size flags =>
    simp only [check] at h
    rw [except_map_const_ok h]
    exact hr
  case LoadAcquire aty rt rn flags =>
    simp only [check] at h
    rw [except_map_const_ok h]
    exact hr
  case Store8 rd mem flags =>
    simp only [check] at h
    rw [except_map_const_ok h]
    exact hr
  case Store16 rd mem flags =>
    simp only [check] at h
    rw [except_map_const_ok h]
    exact hr
  case Store32 rd mem flags =>
    simp only [check] at h
    rw [except_map_const_ok h]
    exact hr
  case Store64 rd mem flags =>
    simp only [check] at h
    rw [except_map_const_ok h]
    exact hr
  case FpuStore32 rd mem flags =>
    simp only [check] at h
    rw [except_map_const_ok h]
    exact hr
  case FpuStore64 rd mem flags =>
    simp only [check] at h
    rw [except_map_const_ok h]
    exact hr
  case FpuStore128 rd mem flags =>
    simp only [check] at h
    rw [except_map_const_ok h]
    exact hr
  case StoreP64 rt rt2 mem flags =>
    simp only [check] at h
    rw [except_map_const_ok h]
    exact hr
  case FpuStoreP64 rt rt2 mem flags =>
    simp only [check] at h
    rw [except_map_const_ok h]
    exact hr
  case FpuStoreP128 rt rt2 mem flags =>
    simp only [check] at h
    rw [except_map_const_ok h]
    exact hr
  case StoreRelease aty rt rn flags =>
    simp only [check] at h
    rw [except_map_const_ok h]
    exact hr
  case AluRRR alu_op size rd rn rm =>
    simp only [check] at h
    split at h
    · unfold check_binop at h
      rcases check_output_ok_cases h with rfl | ⟨hout, d, rfl⟩
      · exact hr
      · exact set_vreg_fact_preserves d hout r f0 hr
    · rcases check_output_ok_cases h with rfl | ⟨hout, d, rfl⟩
      · exact hr
      · exact set_vreg_fact_preserves d hout r f0 hr
  case AluRRImm12 alu_op size rd rn imm12 =>
    simp only [check] at h
    split at h
    · unfold check_unop at h
      rcases check_output_ok_cases h with rfl | ⟨hout, d, rfl⟩
      · exact hr
      · exact set_vreg_fact_preserves d hout r f0 hr
    · rcases check_output_ok_cases h with rfl | ⟨hout, d, rfl⟩
      · exact hr
      · exact set_vreg_fact_preserves d hout r f0 hr
  case AluRRRShift alu_op size rd rn rm shiftop =>
    simp only [check] at h
    split at h
    · unfold check_binop at h
      rcases check_output_ok_cases h with rfl | ⟨hout, d, rfl⟩
      · exact hr
      · exact set_vreg_fact_preserves d hout r f0 hr
    · rcases check_output_ok_cases h with rfl | ⟨hout, d, rfl⟩
      · exact hr
      · exact set_vreg_fact_preserves d hout r f0 hr
  case AluRRRExtend alu_op size rd rn rm extendop =>
    simp only [check] at h
    split at h
    · unfold check_binop at h
      rcases check_output_ok_cases h with rfl | ⟨hout, d, rfl⟩
      · exact hr
      · exact set_vreg_fact_preserves d hout r f0 hr
    · rcases check_output_ok_cases h with rfl | ⟨hout, d, rfl⟩
      · exact hr
      · exact set_vreg_fact_preserves d hout r f0 hr
  case AluRRImmShift alu_op size rd rn immshift =>
    simp only [check] at h
    split at h
    · unfold check_unop at h
      rcases check_output_ok_cases h with rfl | ⟨hout, d, rfl⟩
      · exact hr
      · exact set_vreg_fact_preserves d hout r f0 hr
    · rcases check_output_ok_cases h with rfl | ⟨hout, d, rfl⟩
      · exact hr
      · exact set_vreg_fact_preserves d hout r f0 hr
  case AluRRImmLogic alu_op size rd rn imml =>
    simp only [check] at h
    rcases check_output_ok_cases h with rfl | ⟨hout, d, rfl⟩
    · exact hr
    · exact set_vreg_fact_preserves d hout r f0 hr
  case Extend rd rn signed fb tb =>
    simp only [check] at h
    split at h
    · unfold check_unop at h
      rcases check_output_ok_cases h with rfl | ⟨hout, d, rfl⟩
      · exact hr
      · exact set_vreg_fact_preserves d hout r f0 hr
    · split at h
      · exact Except.noConfusion h
      · injection h with h2
        rw [← h2]
        exact hr
  case MovWide op imm size rd =>
    cases op with
    | MovZ =>
      simp only [check] at h
      rcases check_constant_ok_cases h with rfl | ⟨hout, rfl⟩
      · exact hr
      · exact set_vreg_fact_preserves _ hout r f0 hr
    | MovN =>
      simp only [check] at h
      rcases check_constant_ok_cases h with rfl | ⟨hout, rfl⟩
      · exact hr
      · exact set_vreg_fact_preserves _ hout r f0 hr
  case MovK rd rn imm size =>
    simp only [check] at h
    cases hg : get_fact_or_default vcode rn with
    | error e =>
      rw [hg] at h
      simp only [pcc_bind_error] at h
      exact Except.noConfusion h
    | ok input =>
      rw [hg] at h
      simp only [pcc_bind_ok] at h
      split at h
      · rcases check_constant_ok_cases h with rfl | ⟨hout, rfl⟩
        · exact hr
        · exact set_vreg_fact_preserves _ hout r f0 hr
      · rcases check_output_ok_cases h with rfl | ⟨hout, d, rfl⟩
        · exact hr
        · exact set_vreg_fact_preserves d hout r f0 hr
  case Other =>
    simp only [check] at h
    split at h
    · exact Except.noConfusion h
    · injection h with h2
      rw [← h2]
      exact hr

/-- Claim C10 (witness): a constant-installing move preserves the fact
already declared on another register. -/
theorem fact_store_monotone_witness :
    (vcode1.set_vreg_fact 0 (Fact.Constant 64 0x1234)).vreg_fact 1 =
      some (Fact.Constant 64 0x1234) :=
  fact_store_monotone ctx0 vcode1
    (.MovWide .MovZ ⟨0x1234, 0, by decide, by decide⟩ .Size64 0) false
    (vcode1.set_vreg_fact 0 (Fact.Constant 64 0x1234)) (by rfl) 1
    (Fact.Constant 64 0x1234) (by rfl)

/-- Claim C1 (counterexample): the destination-fact check does NOT apply to
the float/vector load forms. A checked 32-bit float load whose addressing
derivation succeeds and whose destination register carries a fact that the
loaded fact does not subsume (the algebra's subsumption refuses everything)
is nevertheless accepted: the float forms pass no destination register, so
the loaded fact is compared against no fact at all. -/
theorem fpu_load_ignores_destination_fact :
    check ctxRefuse vcode01 (.FpuLoad32 0 (.Unscaled 1 ⟨0⟩) ⟨true⟩) false =
      .ok vcode01 ∧
    MemFlags.checked ⟨true⟩ = true ∧
    amode_fact ctxRefuse vcode01 (.Unscaled 1 ⟨0⟩) .F32 =
      .ok (some (Fact.Constant 64 7, .F32)) ∧
    ctxRefuse.load (Fact.Constant 64 7) .F32 = .ok (Fact.Constant 64 0) ∧
    vcode01.vreg_fact 0 = some (Fact.Constant 64 5) ∧
    ctxRefuse.subsumes_fact_optionals (Fact.Constant 64 0) (vcode01.vreg_fact 0) =
      false :=
  ⟨rfl, rfl, rfl, rfl, rfl, rfl⟩

/-- Claim C1 (amended): for every typed load whose access is checked and whose
addressing-mode derivation succeeds, the verifier asks the algebra's `load`
for the fact of the value read at the derived width/type and accepts exactly
when that loaded fact subsumes, via `subsumesFactOptionals`, the fact of the
destination register it was handed — the integer load forms hand their
destination register over (so its existing fact is checked), while the float
and vector load forms hand over no destination, so for them the subsumption
obligation is vacuous and only a `load` failure can reject. -/
theorem typed_load_checked_subsumption :
    (∀ (ctx : FactContext) (vcode : VCode) (flags : MemFlags) (addr : AMode)
        (ty usedTy : Ty) (rdOpt : Option Reg) (sum : Fact),
      flags.checked = true →
      amode_fact ctx vcode addr ty = .ok (some (sum, usedTy)) →
      check_load ctx rdOpt flags addr vcode ty =
        match ctx.load sum usedTy with
        | .error e => .error e
        | .ok loaded =>
          if ctx.subsumes_fact_optionals loaded
              (rdOpt.bind (fun rd => vcode.vreg_fact rd)) = true
          then .ok () else .error .UnsupportedFact) ∧
    (∀ (ctx : FactContext) (vcode : VCode) (idf : Bool) (rd : Reg) (mem : AMode)
        (flags : MemFlags),
      check ctx vcode (.ULoad8 rd mem flags) idf =
        (check_load ctx (some rd) flags mem vcode .I8).map (fun _ => vcode) ∧
      check ctx vcode (.SLoad8 rd mem flags) idf =
        (check_load ctx (some rd) flags mem vcode .I8).map (fun _ => vcode) ∧
      check ctx vcode (.ULoad16 rd mem flags) idf =
        (check_load ctx (some rd) flags mem vcode .I16).map (fun _ => vcode) ∧
      check ctx vcode (.SLoad16 rd mem flags) idf =
        (check_load ctx (some rd) flags mem vcode .I16).map (fun _ => vcode) ∧
      check ctx vcode (.ULoad32 rd mem flags) idf =
        (check_load ctx (some rd) flags mem vcode .I32).map (fun _ => vcode) ∧
      check ctx vcode (.SLoad32 rd mem flags) idf =
        (check_load ctx (some rd) flags mem vcode .I32).map (fun _ => vcode) ∧
      check ctx vcode (.ULoad64 rd mem flags) idf =
        (check_load ctx (some rd) flags mem vcode .I64).map (fun _ => vcode) ∧
      check ctx vcode (.FpuLoad32 rd mem flags) idf =
        (check_load ctx none flags mem vcode .F32).map (fun _ => vcode) ∧
      check ctx vcode (.FpuLoad64 rd mem flags) idf =
        (check_load ctx none flags mem vcode .F64).map (fun _ => vcode) ∧
      check ctx vcode (.FpuLoad128 rd mem flags) idf =
        (check_load ctx none flags mem vcode .I8X16).map (fun _ => vcode)) := by
  constructor
  · intro ctx vcode flags addr ty usedTy rdOpt sum hc ha
    simp only [check_load]
    rw [check_addr_eq, hc, ha, if_neg (show ¬((true : Bool) = false) by decide)]
    simp only [access_check]
    cases hl : ctx.load sum usedTy with
    | error e => rfl
    | ok loaded => rfl
  · intro ctx vcode idf rd mem flags
    exact ⟨rfl, rfl, rfl, rfl, rfl, rfl, rfl, rfl, rfl, rfl⟩

/-- Claim C1 (witness): the checked-load equation on closed inputs — an 8-bit
integer load through a signed-offset addressing mode whose base register
carries a constant fact. -/
theorem typed_load_checked_subsumption_witness :
    check_load ctx0 (some 0) ⟨true⟩ (.Unscaled 1 ⟨0⟩) vcode1 .I8 =
      match ctx0.load (Fact.Constant 64 0x1234) .I8 with
      | .error e => .error e
      | .ok loaded =>
        if ctx0.subsumes_fact_optionals loaded
            ((some 0).bind (fun rd => vcode1.vreg_fact rd)) = true
        then .ok () else .error .UnsupportedFact :=
  typed_load_checked_subsumption.1 ctx0 vcode1 ⟨true⟩ (.Unscaled 1 ⟨0⟩) .I8 .I8
    (some 0) (Fact.Constant 64 0x1234) rfl rfl

end Aarch64Pcc
